import Mathlib

/-!
Shallow embedding of `src/common/dcache/redis.go` (package `dcache`):
a two-tier cache in which a per-node in-memory cache (`MemSession`) sits
in front of a shared Redis store, kept coherent through pub/sub
invalidation notices.  External collaborators (the Redis client and the
serialization codec) are modelled as explicit function records; each
`RedisSession` method becomes a pure function over them.
-/

namespace DCache

/-- Constants from redis.go lines 14-19. -/
def redis_item_timeout : Int := 60 * 60

def redis_sync_set : Int := 1

def redis_sync_del : Int := 2

/-- The `publisher` struct (redis.go lines 21-27): an invalidation notice
carried on the broadcast channel. -/
structure publisher where
  From : String
  Act : Int
  Key : String
  Val : String
  Ttl : Int
deriving DecidableEq, Repr

/-- Modelled from the spec: the Local Cache collaborator (`MemSession`,
constructed by `newMemSession`) is not among the provided sources; §6 of
the spec requires of it `Get(key) -> (bytes, found)`,
`Set(key, bytes, ttlSeconds) -> bool`, `Delete(key)`, `Check(key) -> bool`,
and §2 describes it as a TTL-aware local mapping from key to serialized
value.  We model it as an association list from key to (payload, ttl);
`set` overwrites and reports success. -/
structure MemSession where
  entries : List (String × String × Int)
deriving DecidableEq, Repr

/-- Modelled from the spec: Local Cache lookup, `mem.Get(key, &s)`. -/
def MemSession.get (m : MemSession) (key : String) : Option String :=
  (m.entries.find? (fun e => e.1 = key)).map (fun e => e.2.1)

/-- Modelled from the spec: Local Cache store, `mem.Set(key, val, ttl)`. -/
def MemSession.set (m : MemSession) (key val : String) (ttl : Int) :
    Bool × MemSession :=
  (true, ⟨(key, val, ttl) :: m.entries.filter (fun e => ¬ e.1 = key)⟩)

/-- Modelled from the spec: Local Cache eviction, `mem.Delete(key)`. -/
def MemSession.delete (m : MemSession) (key : String) : MemSession :=
  ⟨m.entries.filter (fun e => ¬ e.1 = key)⟩

/-- Modelled from the spec: Local Cache membership, `mem.Check(key)`. -/
def MemSession.check (m : MemSession) (key : String) : Bool :=
  (m.entries.find? (fun e => e.1 = key)).isSome

/-- The serialization collaborator (`json.Marshal` / `json.Unmarshal` on
the cached value type): encoding may fail (marshal error), decoding may
fail (unmarshal error). -/
structure Codec (α : Type) where
  enc : α → Option String
  dec : String → Option α

/-- The Durable Store collaborator: one record covering both the
single-endpoint client and the cluster client (the Go methods branch on
`rs.cluster` but issue the same operation either way).  `get` returns the
payload or an error, `ttl` the remaining TTL in seconds as reported by
the TTL command, `set`/`del` return an error or `none` on success. -/
structure Store where
  get : String → Except String String
  ttl : String → Int
  set : String → String → Int → Option String
  del : String → Option String

/-- The `RedisSession` state visible to the modelled methods: the random
node identity `name`, the topology flag `cluster`, and the owned local
cache `mem` (redis.go lines 29-37; the connection handles live in
`Store`). -/
structure RedisSession where
  name : String
  cluster : Bool
  mem : MemSession
deriving DecidableEq, Repr

/-- redis.go lines 128-136 (`getTtl`): queries the store TTL and returns
it together with a boolean that the source hardcodes to `true`. -/
def RedisSession.getTtl (store : Store) (key : String) : Int × Bool :=
  (store.ttl key, true)

/-- redis.go lines 157-188 (`Get`): consult the local cache; on a miss
fall back to the store, and on a store hit query the TTL, deserialize,
and repopulate the local cache with `ttl - 5`.  The decoded value (the
out-parameter `data`) is returned as the third component. -/
def RedisSession.Get {α : Type} (rs : RedisSession) (store : Store)
    (c : Codec α) (key : String) : Bool × RedisSession × Option α :=
  match rs.mem.get key with
  | none =>
    match store.get key with
    | Except.error _ => (false, rs, none)
    | Except.ok s =>
      match RedisSession.getTtl store key with
      | (ttl, true) =>
        match c.dec s with
        | none => (false, rs, none)
        | some v =>
          let r := rs.mem.set key s (ttl - 5)
          (r.1, { rs with mem := r.2 }, some v)
      | (_, false) => (false, rs, none)
  | some s =>
    match c.dec s with
    | none => (false, rs, none)
    | some v => (true, rs, some v)

/-- Result of `Set`: the returned boolean, the local cache afterwards,
the store write that was attempted (key, payload, ttl; `none` when
serialization failed before any write), and the notices handed to the
asynchronous `publish`. -/
structure SetResult where
  ok : Bool
  mem : MemSession
  written : Option (String × String × Int)
  notices : List publisher
deriving DecidableEq, Repr

/-- redis.go lines 190-219 (`Set`): serialize, normalize a non-positive
TTL to `redis_item_timeout`, write to the store; on success mirror the
write into the local cache and publish an update notice. -/
def RedisSession.Set {α : Type} (rs : RedisSession) (store : Store)
    (c : Codec α) (key : String) (data : α) (ttl : Int) : SetResult :=
  match c.enc data with
  | none => ⟨false, rs.mem, none, []⟩
  | some s =>
    let ttl := if ttl ≤ 0 then redis_item_timeout else ttl
    match store.set key s ttl with
    | some _ => ⟨false, rs.mem, some (key, s, ttl), []⟩
    | none =>
      let r := rs.mem.set key s ttl
      ⟨true, r.2, some (key, s, ttl), [⟨rs.name, redis_sync_set, key, s, ttl⟩]⟩

/-- redis.go lines 221-238 (`Delete`): issue the store delete (its error
is only logged), evict locally, publish a delete notice with empty
payload, and return `true`. -/
def RedisSession.Delete (rs : RedisSession) (store : Store) (key : String) :
    Bool × MemSession × List publisher :=
  let _ := store.del key
  (true, rs.mem.delete key, [⟨rs.name, redis_sync_del, key, "", 0⟩])

/-- redis.go lines 72-97 (`subscribe` loop body): one received message.
`none` models a payload that failed to unmarshal (logged and skipped).
The source checks `pub.From != rs.name` twice, nested; we keep both.
Returns the local cache after the message is handled. -/
def RedisSession.handleMsg (rs : RedisSession) (payload : Option publisher) :
    MemSession :=
  match payload with
  | none => rs.mem
  | some pub =>
    if pub.From ≠ rs.name then
      if pub.From ≠ rs.name then
        if pub.Act = redis_sync_set then (rs.mem.set pub.Key pub.Val pub.Ttl).2
        else if pub.Act = redis_sync_del then rs.mem.delete pub.Key
        else rs.mem
      else rs.mem
    else rs.mem

/-- A command issued against the store's hash interface: key plus the
list of field arguments actually passed. -/
inductive RedisCmd where
  | hdel (key : String) (fields : List String)
deriving DecidableEq, Repr

/-- redis.go lines 150-155 (`HDel`): both the cluster branch and the
single-endpoint branch call the client's HDel with the key only, passing
no field argument. -/
def RedisSession.HDel (rs : RedisSession) (key field : String) : RedisCmd :=
  if rs.cluster then RedisCmd.hdel key [] else RedisCmd.hdel key []

/-- The page size constant passed to the store scan on each round
(redis.go line 248/250). -/
def redis_scan_count : Nat := 100

/-- Per-key deletion over one page of scanned keys (redis.go lines
257-267): delete each key in order, stopping at the first error. -/
def deleteKeys (del : String → Option String) : List String → Option String
  | [] => none
  | k :: ks =>
    match del k with
    | some e => some e
    | none => deleteKeys del ks

/-- The `ScanDelete` loop (redis.go lines 244-271), with the store's
successive scan responses given as a list of pages (the cursor walks this
list; a cursor of zero ends it).  `n` is the running count: the source
adds the whole page length to `n` before deleting any key of the page. -/
def scanDeleteGo (del : String → Option String) :
    List (Except String (List String)) → Nat → Nat × Option String
  | [], n => (n, none)
  | Except.error e :: _, _ => (0, some e)
  | Except.ok ks :: rest, n =>
    let n := n + ks.length
    match deleteKeys del ks with
    | some e => (n, some e)
    | none => scanDeleteGo del rest n

/-- redis.go lines 240-274 (`ScanDelete`): cursor-paged scan of matching
keys (each round requesting `redis_scan_count` keys), deleting each key;
a scan error returns `(0, err)`, a delete error returns the running count
with the error, exhaustion returns the total count. -/
def RedisSession.ScanDelete (del : String → Option String)
    (pages : List (Except String (List String))) : Nat × Option String :=
  scanDeleteGo del pages 0

/-- Total number of keys across a list of scan pages. -/
def totalKeys (pages : List (List String)) : Nat :=
  (pages.map List.length).sum

/-- Number of per-key deletions actually performed before the first
failing delete, over a list of keys attempted in order. -/
def deletionsPerformed (del : String → Option String) : List String → Nat
  | [] => 0
  | k :: ks =>
    match del k with
    | some _ => 0
    | none => 1 + deletionsPerformed del ks

/-- The TTL normalization applied by `Set` (redis.go lines 198-201). -/
def normTtl (ttl : Int) : Int :=
  if ttl ≤ 0 then redis_item_timeout else ttl

/-! Concrete fixtures used by witness and counterexample theorems. -/

/-- An empty local cache. -/
def memEmpty : MemSession := ⟨[]⟩

/-- A session for a single-endpoint node named `nodeA`. -/
def rsA : RedisSession := ⟨"nodeA", false, memEmpty⟩

/-- A codec on strings whose encoding and decoding always succeed. -/
def idCodec : Codec String := ⟨fun s => some s, fun s => some s⟩

/-- A codec that only decodes the payload `v` (anything else is a
decode failure, like an undecodable JSON blob). -/
def vCodec : Codec String :=
  ⟨fun s => some s, fun s => if s = "v" then some s else none⟩

/-- A store holding `v` under every key with 60 seconds to live; all
writes and deletes succeed. -/
def storeOk : Store :=
  ⟨fun _ => Except.ok "v", fun _ => 60, fun _ _ _ => none, fun _ => none⟩

/-- A store holding `v` under every key but reporting a negative
remaining TTL (an expired or persistent key). -/
def storeNeg : Store :=
  ⟨fun _ => Except.ok "v", fun _ => -1, fun _ _ _ => none, fun _ => none⟩

/-- A store whose writes all fail. -/
def storeSetFail : Store :=
  ⟨fun _ => Except.ok "v", fun _ => 60, fun _ _ _ => some "write refused",
   fun _ => none⟩

/-- A per-key delete that fails on key `a` and succeeds elsewhere. -/
def badDel : String → Option String :=
  fun k => if k = "a" then some "boom" else none

/-! Helper lemmas. -/

theorem MemSession.get_set_self (m : MemSession) (k val : String) (t : Int) :
    ((m.set k val t).2).get k = some val := by
  simp [MemSession.set, MemSession.get]

theorem deleteKeys_eq_none (del : String → Option String) (ks : List String)
    (h : ∀ k ∈ ks, del k = none) : deleteKeys del ks = none := by
  induction ks with
  | nil => rfl
  | cons k ks ih =>
    have hk : del k = none := h k (List.mem_cons_self k ks)
    have hrest : ∀ x ∈ ks, del x = none := fun x hx => h x (List.mem_cons_of_mem _ hx)
    simp [deleteKeys, hk, ih hrest]

theorem scanDeleteGo_all_ok (del : String → Option String)
    (pages : List (List String)) (n : Nat)
    (h : ∀ k ∈ pages.flatten, del k = none) :
    scanDeleteGo del (pages.map Except.ok) n = (n + totalKeys pages, none) := by
  induction pages generalizing n with
  | nil => simp [scanDeleteGo, totalKeys]
  | cons ks rest ih =>
    have h1 : deleteKeys del ks = none :=
      deleteKeys_eq_none del ks (fun k hk =>
        h k (List.mem_flatten.mpr ⟨ks, List.mem_cons_self ks rest, hk⟩))
    have h2 : ∀ k ∈ rest.flatten, del k = none := by
      intro k hk
      obtain ⟨l, hl, hkl⟩ := List.mem_flatten.mp hk
      exact h k (List.mem_flatten.mpr ⟨l, List.mem_cons_of_mem _ hl, hkl⟩)
    simp only [List.map_cons, scanDeleteGo, h1]
    rw [ih _ h2]
    simp [totalKeys]
    omega

theorem scanDeleteGo_abort (del : String → Option String)
    (done : List (List String)) (bad : List String)
    (rest : List (Except String (List String))) (n : Nat) (e : String)
    (hdone : ∀ k ∈ done.flatten, del k = none)
    (hbad : deleteKeys del bad = some e) :
    scanDeleteGo del (done.map Except.ok ++ Except.ok bad :: rest) n
      = (n + totalKeys done + bad.length, some e) := by
  induction done generalizing n with
  | nil => simp [scanDeleteGo, hbad, totalKeys]
  | cons ks ds ih =>
    have h1 : deleteKeys del ks = none :=
      deleteKeys_eq_none del ks (fun k hk =>
        hdone k (List.mem_flatten.mpr ⟨ks, List.mem_cons_self ks ds, hk⟩))
    have h2 : ∀ k ∈ ds.flatten, del k = none := by
      intro k hk
      obtain ⟨l, hl, hkl⟩ := List.mem_flatten.mp hk
      exact hdone k (List.mem_flatten.mpr ⟨l, List.mem_cons_of_mem _ hl, hkl⟩)
    simp only [List.map_cons, List.cons_append, scanDeleteGo, h1, List.append_eq]
    rw [ih _ h2]
    simp [totalKeys]
    omega

/-! Claim theorems. -/

/-- Claim C2: if serialization of the value fails or the Durable Store
write fails, `Set` returns false, the Local Cache is left unchanged, and
no notice is published; if both succeed, `Set` returns true. -/
theorem set_error_handling {α : Type} (rs : RedisSession) (store : Store)
    (c : Codec α) (key : String) (v : α) (ttl : Int) :
    (c.enc v = none → rs.Set store c key v ttl = ⟨false, rs.mem, none, []⟩)
    ∧ (∀ s, c.enc v = some s →
        (store.set key s (normTtl ttl) ≠ none →
            (rs.Set store c key v ttl).ok = false
            ∧ (rs.Set store c key v ttl).mem = rs.mem
            ∧ (rs.Set store c key v ttl).notices = [])
        ∧ (store.set key s (normTtl ttl) = none →
            (rs.Set store c key v ttl).ok = true)) := by
  refine ⟨fun h => by simp [RedisSession.Set, h], fun s hs => ⟨fun hw => ?_, fun hw => ?_⟩⟩
  · rcases he : store.set key s (normTtl ttl) with _ | e
    · exact absurd he hw
    · simp only [normTtl] at he
      simp [RedisSession.Set, hs, he]
  · simp only [normTtl] at hw
    simp [RedisSession.Set, hs, hw]

/-- Witness for C2: a failing encoder aborts with no side effects, a
failing store write returns false with no cache mutation and no notice,
and a clean write returns true. -/
theorem set_error_handling_witness :
    ((⟨"nodeA", false, ⟨[]⟩⟩ : RedisSession).Set storeOk
        (⟨fun _ => none, fun _ => none⟩ : Codec String) "k" "v" 7
      = ⟨false, ⟨[]⟩, none, []⟩)
    ∧ ((⟨"nodeA", false, ⟨[]⟩⟩ : RedisSession).Set storeSetFail idCodec "k" "v" 7).ok
        = false
    ∧ ((⟨"nodeA", false, ⟨[]⟩⟩ : RedisSession).Set storeSetFail idCodec "k" "v" 7).notices
        = []
    ∧ ((⟨"nodeA", false, ⟨[]⟩⟩ : RedisSession).Set storeOk idCodec "k" "v" 7).ok
        = true :=
  ⟨(set_error_handling _ storeOk _ "k" "v" 7).1 rfl,
   (((set_error_handling _ storeSetFail idCodec "k" "v" 7).2 "v" rfl).1
      (by decide)).1,
   (((set_error_handling _ storeSetFail idCodec "k" "v" 7).2 "v" rfl).1
      (by decide)).2.2,
   ((set_error_handling _ storeOk idCodec "k" "v" 7).2 "v" rfl).2 rfl⟩

/-- Claim C3: after a successful `Set(k, v, ttl)` on a node, the Local
Cache holds the serialized value under `k` (stored synchronously before
`Set` returns), and an immediately following `Get(k)` on the same node
returns true and yields `v` (given the codec round-trips on `v`). -/
theorem set_then_get_same_node {α : Type} (rs : RedisSession) (store : Store)
    (c : Codec α) (key s : String) (v : α) (ttl : Int)
    (henc : c.enc v = some s) (hdec : c.dec s = some v)
    (hw : store.set key s (normTtl ttl) = none) :
    (rs.Set store c key v ttl).ok = true
    ∧ (rs.Set store c key v ttl).mem.get key = some s
    ∧ ({ rs with mem := (rs.Set store c key v ttl).mem }.Get store c key)
        = (true, { rs with mem := (rs.Set store c key v ttl).mem }, some v) := by
  simp only [normTtl] at hw
  have hset : rs.Set store c key v ttl
      = ⟨true, (rs.mem.set key s (if ttl ≤ 0 then redis_item_timeout else ttl)).2,
         some (key, s, if ttl ≤ 0 then redis_item_timeout else ttl),
         [⟨rs.name, redis_sync_set, key, s,
           if ttl ≤ 0 then redis_item_timeout else ttl⟩]⟩ := by
    simp [RedisSession.Set, henc, hw]
  refine ⟨by simp [hset], ?_, ?_⟩
  · rw [hset]
    exact MemSession.get_set_self rs.mem key s _
  · have hget : ((rs.Set store c key v ttl).mem).get key = some s := by
      rw [hset]
      exact MemSession.get_set_self rs.mem key s _
    simp [RedisSession.Get, hget, hdec]

/-- Witness for C3 at a concrete node, store, codec and value. -/
theorem set_then_get_same_node_witness :
    (rsA.Set storeOk idCodec "k" "v" 30).ok = true
    ∧ (rsA.Set storeOk idCodec "k" "v" 30).mem.get "k" = some "v"
    ∧ ({ rsA with mem := (rsA.Set storeOk idCodec "k" "v" 30).mem }.Get storeOk
          idCodec "k")
        = (true, { rsA with mem := (rsA.Set storeOk idCodec "k" "v" 30).mem },
           some "v") :=
  set_then_get_same_node rsA storeOk idCodec "k" "v" "v" 30 rfl rfl rfl

/-- Claim C4: the listener never mutates the Local Cache on a notice
whose origin equals the node's own identity; on a foreign notice, an
update overwrites the cache with the notice's key, value and TTL
verbatim, and a delete evicts the key. -/
theorem listener_origin_filter (rs : RedisSession) (pub : publisher) :
    (pub.From = rs.name → rs.handleMsg (some pub) = rs.mem)
    ∧ (pub.From ≠ rs.name → pub.Act = redis_sync_set →
        rs.handleMsg (some pub) = (rs.mem.set pub.Key pub.Val pub.Ttl).2)
    ∧ (pub.From ≠ rs.name → pub.Act = redis_sync_del →
        rs.handleMsg (some pub) = rs.mem.delete pub.Key) := by
  refine ⟨fun h => by simp [RedisSession.handleMsg, h],
    fun h ha => by simp [RedisSession.handleMsg, h, ha],
    fun h ha => ?_⟩
  have hne : redis_sync_del ≠ redis_sync_set := by decide
  simp [RedisSession.handleMsg, h, ha, hne]

/-- Witness for C4: an echoed self-notice is a no-op, and foreign
update/delete notices are applied. -/
theorem listener_origin_filter_witness :
    ((⟨"nodeA", false, ⟨[("k", "old", 9)]⟩⟩ : RedisSession).handleMsg
        (some ⟨"nodeA", 1, "k", "new", 7⟩) = ⟨[("k", "old", 9)]⟩)
    ∧ ((⟨"nodeA", false, ⟨[("k", "old", 9)]⟩⟩ : RedisSession).handleMsg
        (some ⟨"nodeB", 1, "k", "new", 7⟩) = ⟨[("k", "new", 7)]⟩)
    ∧ ((⟨"nodeA", false, ⟨[("k", "old", 9)]⟩⟩ : RedisSession).handleMsg
        (some ⟨"nodeB", 2, "k", "", 0⟩) = ⟨[]⟩) :=
  ⟨(listener_origin_filter _ _).1 rfl,
   (listener_origin_filter _ _).2.1 (by decide) rfl,
   (listener_origin_filter _ _).2.2 (by decide) rfl⟩

/-- Claim C6: `Delete` always returns true, evicts the key from the
Local Cache, and publishes a delete notice with empty payload — for
every store, including one whose delete operation reports an error. -/
theorem delete_always_true (rs : RedisSession) (store : Store) (key : String) :
    rs.Delete store key
      = (true, rs.mem.delete key, [⟨rs.name, redis_sync_del, key, "", 0⟩]) :=
  rfl

/-- Claim C7: whenever `Set` writes to the Durable Store, the written
TTL is the normalized one — equal to 3600 when the requested TTL is not
positive, and always positive. -/
theorem set_ttl_normalized {α : Type} (rs : RedisSession) (store : Store)
    (c : Codec α) (key : String) (v : α) (ttl : Int) (k s : String) (t : Int)
    (h : (rs.Set store c key v ttl).written = some (k, s, t)) :
    t = normTtl ttl ∧ 0 < t ∧ (ttl ≤ 0 → t = 3600) := by
  rcases he : c.enc v with _ | s'
  · simp [RedisSession.Set, he] at h
  · have ht : t = normTtl ttl := by
      rcases hw : store.set key s' (normTtl ttl) with _ | e
      · simp only [normTtl] at hw
        simp [RedisSession.Set, he, hw] at h
        exact h.2.2.symm
      · simp only [normTtl] at hw
        simp [RedisSession.Set, he, hw] at h
        exact h.2.2.symm
    subst ht
    refine ⟨rfl, ?_, fun hle => ?_⟩
    · by_cases hle : ttl ≤ 0
      · simp [normTtl, hle, redis_item_timeout]
      · simp only [normTtl, hle, if_false]
        omega
    · simp [normTtl, hle, redis_item_timeout]

/-- Witness for C7: a `Set` requested with TTL `-5` writes TTL 3600. -/
theorem set_ttl_normalized_witness :
    3600 = normTtl (-5) ∧ (0 : Int) < 3600 ∧ ((-5 : Int) ≤ 0 → (3600 : Int) = 3600) :=
  set_ttl_normalized rsA storeOk idCodec "k" "v" (-5) "k" "v" 3600 rfl

/-- Claim C8: when the Local Cache holds a payload for the key that
fails deserialization, `Get` returns false (a miss) and changes
nothing, even though the key was present locally. -/
theorem corrupt_local_entry_miss {α : Type} (rs : RedisSession) (store : Store)
    (c : Codec α) (key s : String)
    (hmem : rs.mem.get key = some s) (hdec : c.dec s = none) :
    rs.Get store c key = (false, rs, none) := by
  simp [RedisSession.Get, hmem, hdec]

/-- Witness for C8: an undecodable payload injected under key `k`. -/
theorem corrupt_local_entry_miss_witness :
    (⟨"nodeA", false, ⟨[("k", "junk", 10)]⟩⟩ : RedisSession).Get storeOk vCodec "k"
      = (false, ⟨"nodeA", false, ⟨[("k", "junk", 10)]⟩⟩, none) :=
  corrupt_local_entry_miss _ storeOk vCodec "k" "junk" rfl (by decide)

/-- Claim C9: `getTtl` reports `true` unconditionally, so on every
Durable Store hit with a decodable payload `Get` repopulates the Local
Cache with the reported TTL minus 5 — for every reported TTL, including
non-positive ones — and the `false` branch guarded by that boolean is
unreachable. -/
theorem getTtl_always_true_repopulates {α : Type} (rs : RedisSession)
    (store : Store) (c : Codec α) (key s : String) (v : α)
    (hmiss : rs.mem.get key = none) (hhit : store.get key = Except.ok s)
    (hdec : c.dec s = some v) :
    (RedisSession.getTtl store key).2 = true
    ∧ rs.Get store c key
        = ((rs.mem.set key s (store.ttl key - 5)).1,
           { rs with mem := (rs.mem.set key s (store.ttl key - 5)).2 },
           some v) := by
  refine ⟨rfl, ?_⟩
  simp [RedisSession.Get, RedisSession.getTtl, hmiss, hhit, hdec]

/-- Witness for C9, at a store reporting TTL `-1` for the key. -/
theorem getTtl_always_true_repopulates_witness :
    (RedisSession.getTtl storeNeg "k").2 = true
    ∧ rsA.Get storeNeg idCodec "k"
        = ((rsA.mem.set "k" "v" (storeNeg.ttl "k" - 5)).1,
           { rsA with mem := (rsA.mem.set "k" "v" (storeNeg.ttl "k" - 5)).2 },
           some "v") :=
  getTtl_always_true_repopulates rsA storeNeg idCodec "k" "v" "v" rfl rfl rfl

/-- Claim C1 at its failing input: the store holds `v` under `k` with a
reported remaining TTL of `-1` (not positive).  `Get` nevertheless
repopulates the Local Cache with TTL `-6` and returns true, where the
claim requires that nothing be cached and that `Get` return false. -/
theorem get_caches_nonpositive_ttl :
    rsA.Get storeNeg idCodec "k"
      = (true, ⟨"nodeA", false, ⟨[("k", "v", -6)]⟩⟩, some "v")
    ∧ (⟨[("k", "v", -6)]⟩ : MemSession).get "k" = some "v" :=
  ⟨rfl, rfl⟩

/-- Claim C5 (counterexample): one scanned page `[a, b]` where deleting
`a` fails: `ScanDelete` returns count 2 with the error although zero
deletions were performed, so the returned count is not the number of
deletions performed so far. -/
theorem scanDelete_counts_undeleted :
    RedisSession.ScanDelete badDel [Except.ok ["a", "b"]] = (2, some "boom")
    ∧ deletionsPerformed badDel ["a", "b"] = 0
    ∧ (RedisSession.ScanDelete badDel [Except.ok ["a", "b"]]).1
        ≠ deletionsPerformed badDel ["a", "b"] := by
  refine ⟨rfl, rfl, by decide⟩

/-- Claim C5 (amended): `ScanDelete` walks the scan pages until the
cursor ends.  When every per-key delete succeeds it returns the total
number of scanned keys and no error; when a page contains a failing key
it aborts and returns the error together with the number of keys
scanned so far — all keys of the completed pages plus all keys of the
failing page, including keys of that page not yet deleted. -/
theorem scanDelete_pagination (del : String → Option String) :
    (∀ pages : List (List String), (∀ k ∈ pages.flatten, del k = none) →
        RedisSession.ScanDelete del (pages.map Except.ok)
          = (totalKeys pages, none))
    ∧ (∀ (done : List (List String)) (bad : List String)
        (rest : List (Except String (List String))) (e : String),
        (∀ k ∈ done.flatten, del k = none) → deleteKeys del bad = some e →
        RedisSession.ScanDelete del (done.map Except.ok ++ Except.ok bad :: rest)
          = (totalKeys done + bad.length, some e)) := by
  constructor
  · intro pages h
    simpa [RedisSession.ScanDelete] using scanDeleteGo_all_ok del pages 0 h
  · intro done bad rest e hdone hbad
    simpa [RedisSession.ScanDelete]
      using scanDeleteGo_abort del done bad rest 0 e hdone hbad

/-- Witness for C5: three clean pages of sizes 2, 1, 1 count to 4; with
a failing key in the second page the call aborts at count 2 + 3. -/
theorem scanDelete_pagination_witness :
    RedisSession.ScanDelete badDel
        [Except.ok ["x", "y"], Except.ok ["z"], Except.ok ["w"]]
      = (totalKeys [["x", "y"], ["z"], ["w"]], none)
    ∧ RedisSession.ScanDelete badDel
        [Except.ok ["x", "y"], Except.ok ["z", "a", "w"]]
      = (totalKeys [["x", "y"]] + (["z", "a", "w"] : List String).length,
         some "boom") :=
  ⟨(scanDelete_pagination badDel).1 [["x", "y"], ["z"], ["w"]] (by decide),
   (scanDelete_pagination badDel).2 [["x", "y"]] ["z", "a", "w"] [] "boom"
     (by decide) (by decide)⟩

/-- Claim C10 (counterexample): in single-endpoint mode `HDel` also
omits the field argument, and both topologies issue exactly the same
command, contrary to the claimed asymmetry. -/
theorem hdel_single_mode_drops_field :
    RedisSession.HDel ⟨"nodeA", false, ⟨[]⟩⟩ "k" "f" = RedisCmd.hdel "k" []
    ∧ RedisSession.HDel ⟨"nodeA", false, ⟨[]⟩⟩ "k" "f" ≠ RedisCmd.hdel "k" ["f"]
    ∧ RedisSession.HDel ⟨"nodeA", false, ⟨[]⟩⟩ "k" "f"
        = RedisSession.HDel ⟨"nodeA", true, ⟨[]⟩⟩ "k" "f" := by
  refine ⟨rfl, by decide, rfl⟩

/-- Claim C10 (amended): in both topologies `HDel(key, field)` issues
the hash delete with the key only, never passing the field, so the two
modes always perform the same operation. -/
theorem hdel_same_in_both_topologies (rs rs2 : RedisSession)
    (key field : String) :
    rs.HDel key field = RedisCmd.hdel key []
    ∧ rs.HDel key field = rs2.HDel key field := by
  constructor
  · simp [RedisSession.HDel]
  · simp [RedisSession.HDel]

end DCache
